import Mathlib

/-!
Verification of the worker core of a web content-discovery scanner
(package `worker`, file `worker.go`).

The worker logic is embedded shallowly: effects (HTTP fetch attempts,
enqueueing discovered URLs, emitting result records, closing response
bodies, pacing sleeps, done signals) are recorded as an explicit event
trace, and the transport is an oracle mapping a URL to the outcome of
one fetch (response, error, and the redirect captured by the
check-redirect callback during that fetch).  A `none` return models a
Go nil-pointer panic (dereferencing a nil response on the non-error
branch).
-/

namespace Gobuster

/-- A URL: the portion besides the path is opaque for this development. -/
structure URL where
  base : String
  path : String
deriving DecidableEq, Repr

/-- The parts of an `http.Response` the worker reads. -/
structure Response where
  statusCode : Nat
  contentLength : Int
deriving DecidableEq, Repr

/-- Outcome of one `client.RequestURL` call: the returned response (Go may
return `nil`), the returned error, and the redirect request captured by the
worker redirect callback during this fetch (the callback sets the scratch
slot; `none` when no redirect occurred during the fetch). -/
structure FetchOutcome where
  resp : Option Response
  err : Option String
  redirTarget : Option URL
deriving DecidableEq, Repr

/-- The fields of `ss.ScanSettings` the worker reads. -/
structure ScanSettings where
  extensions : List String
  mangle : Bool
  spiderCodes : List Nat
  sleepTime : Nat
deriving Repr

/-- A `results.Result` record.  `code` is `none` when the Go zero value is
left in place (pure transport error with no response); likewise `length`. -/
structure Result where
  url : URL
  code : Option Nat
  error : Option String
  redir : Option URL
  length : Option Int
deriving DecidableEq, Repr

/-- Observable effects of the worker, recorded in order. -/
inductive Event where
  | fetch (u : URL)
  | add (u : URL)
  | emit (r : Result)
  | closeBody
  | pageHandle (u : URL)
  | sleep (d : Nat)
  | done (n : Nat)
deriving DecidableEq, Repr

/-- The page worker capability: only its eligibility test matters to the
worker control flow. -/
structure PageWorker where
  eligible : Response → Bool

/-- A worker: its settings, optional page worker, and its transport
modelled as an oracle from URL to fetch outcome. -/
structure Worker where
  settings : ScanSettings
  pageWorker : Option PageWorker
  fetch : URL → FetchOutcome

/-- Index of the last occurrence of a slash in a string
(`strings.LastIndex(path, "/")`), `none` when absent. -/
def lastSlashIdx (s : String) : Option Nat :=
  match s.data.reverse.indexOf? '/' with
  | none => none
  | some j => some (s.data.length - 1 - j)

/-- Modelled from the spec: `util.URLIsDir` (not under src/) — a
directory-style URL is one whose path ends in a slash (its last character
is a slash). -/
def URLIsDir (u : URL) : Bool :=
  match u.path.data.getLast? with
  | some c => c == '/'
  | none => false

/-- Modelled from the spec: `util.URLHasExtension` (not under src/) — the
URL carries a file extension when the final path segment (after the last
slash) contains a dot. -/
def URLHasExtension (u : URL) : Bool :=
  (match lastSlashIdx u.path with
   | none => u.path
   | some i => u.path.drop (i + 1)).data.contains '.'

/-- `Worker.KeepSpidering`: scan the configured spider codes for the given
status code. -/
def KeepSpidering (s : ScanSettings) (code : Nat) : Bool :=
  s.spiderCodes.any (fun v => code == v)

/-- The fixed mangle rules of `Mangle`, each a format template
(prefix, suffix) applied around the basename: `.%s.swp`, `%s~`,
`%s.bak`, `%s.orig`. -/
def mangleRules : List (String × String) :=
  [(".", ".swp"), ("", "~"), ("", ".bak"), ("", ".orig")]

/-- `Mangle`: apply each rule template to the basename, in order. -/
def Mangle (basename : String) : List String :=
  mangleRules.map (fun rule => rule.1 ++ basename ++ rule.2)

/-- Effect of one fetch on the redirect scratch slot: the callback
overwrites the slot if a redirect occurred during the fetch, otherwise the
slot keeps its prior contents. -/
def fetchSlotAfter (slotBefore : Option URL) (o : FetchOutcome) : Option URL :=
  match o.redirTarget with
  | some r => some r
  | none => slotBefore

/-- The pacing events at the end of every attempt: sleep when a non-zero
sleep time is configured. -/
def sleepEvs (w : Worker) : List Event :=
  if w.settings.sleepTime ≠ 0 then [Event.sleep w.settings.sleepTime] else []

/-- The result record built on the transport-failure branch: the error,
and the status code only when a response was nonetheless returned. -/
def errResult (task : URL) (o : FetchOutcome) : Result :=
  { url := task, code := o.resp.map (·.statusCode), error := o.err,
    redir := none, length := none }

/-- The result record built on the non-failure branch: status code, the
captured redirect (if any), and the content length. -/
def okResult (task : URL) (slot : Option URL) (resp : Response) : Result :=
  { url := task, code := some resp.statusCode, error := none,
    redir := slot, length := some resp.contentLength }

/-- The spider re-enqueue of a directory-style URL with a spiderable
status. -/
def spiderAddEvs (w : Worker) (task : URL) (resp : Response) : List Event :=
  if URLIsDir task && KeepSpidering w.settings resp.statusCode then
    [Event.add task]
  else []

/-- The re-enqueue of a captured redirect target. -/
def redirAddEvs (slot : Option URL) : List Event :=
  match slot with
  | some rt => [Event.add rt]
  | none => []

/-- Handing the body to the page worker when one is attached and judges
the response eligible. -/
def pageWorkerEvs (w : Worker) (task : URL) (resp : Response) : List Event :=
  match w.pageWorker with
  | some pw => if pw.eligible resp then [Event.pageHandle task] else []
  | none => []

/-- The event trace of the non-failure branch of `TryURL`: the fetch, the
conditional spider re-enqueue, the conditional redirect re-enqueue, the
optional page-worker hand-off, the emitted record, the pacing sleep, and
the deferred body close (which runs last). -/
def okTrace (w : Worker) (task : URL) (slot : Option URL) (resp : Response) :
    List Event :=
  Event.fetch task ::
    (spiderAddEvs w task resp ++ redirAddEvs slot ++ pageWorkerEvs w task resp ++
      [Event.emit (okResult task slot resp)] ++ sleepEvs w ++ [Event.closeBody])

/-- `Worker.TryURL`.  Takes the incoming redirect scratch slot and the task
URL; returns the boolean (should the caller keep mangling), the event
trace, and the final scratch slot.  The slot is set to `none` before the
fetch (`w.redir = nil`), then the fetch's callback may overwrite it.
Returns `none` when the Go code would dereference a nil response. -/
def TryURL (w : Worker) (redir0 : Option URL) (task : URL) :
    Option (Bool × List Event × Option URL) :=
  let _ := redir0
  let slot : Option URL := none
  let o := w.fetch task
  let slot := fetchSlotAfter slot o
  if o.err.isSome && slot.isNone then
    some (false, Event.fetch task :: Event.emit (errResult task o) :: sleepEvs w,
      slot)
  else
    match o.resp with
    | none => none
    | some resp =>
      some (KeepSpidering w.settings resp.statusCode, okTrace w task slot resp,
        slot)

/-- What `TryURL` returns on a given URL, as a pure function of the
transport oracle (`none` models the nil-response panic). -/
def tryURLRet (w : Worker) (task : URL) : Option Bool :=
  let o := w.fetch task
  if o.err.isSome && o.redirTarget.isNone then some false
  else
    match o.resp with
    | none => none
    | some resp => some (KeepSpidering w.settings resp.statusCode)

/-- Sequentially attempt a list of URLs with `TryURL`, threading the
scratch slot and concatenating the traces. -/
def tryList (w : Worker) (slot : Option URL) : List URL →
    Option (List Event × Option URL)
  | [] => some ([], slot)
  | u :: rest => do
    let (_, evs, s1) ← TryURL w slot u
    let (evs2, s2) ← tryList w s1 rest
    some (evs ++ evs2, s2)

/-- `Worker.TryMangleURL`: no-op when mangling is disabled or the path has
no slash; otherwise split at the last slash and attempt each mangle
candidate on a clone with the basename substituted. -/
def TryMangleURL (w : Worker) (slot : Option URL) (task : URL) :
    Option (List Event × Option URL) :=
  if !w.settings.mangle then some ([], slot)
  else
    match lastSlashIdx task.path with
    | none => some ([], slot)
    | some spos =>
      let dirname := task.path.take spos
      let basename := task.path.drop (spos + 1)
      tryList w slot
        ((Mangle basename).map
          (fun newname => { task with path := dirname ++ "/" ++ newname }))

/-- The clone attempted for one extension: original path plus a dot plus
the extension. -/
def extURL (task : URL) (ext : String) : URL :=
  { task with path := task.path ++ "." ++ ext }

/-- The extension loop of `HandleURL`: for each configured extension,
attempt the extension clone, and when its attempt signals continued
mangling, attempt the clone's mangle variants. -/
def handleExtensions (w : Worker) (task : URL) :
    Option URL → List String → Option (List Event × Option URL)
  | slot, [] => some ([], slot)
  | slot, ext :: rest => do
    let (b, evs1, s1) ← TryURL w slot (extURL task ext)
    let (evs2, s2) ←
      (if b then TryMangleURL w s1 (extURL task ext) else some ([], s1))
    let (evs3, s3) ← handleExtensions w task s2 rest
    some (evs1 ++ evs2 ++ evs3, s3)

/-- The non-directory part of `HandleURL`: mangle the raw URL when its
attempt signalled continued mangling, then run the extension loop when the
raw URL has no extension. -/
def handleNonDir (w : Worker) (withMangle : Bool) (slot : Option URL)
    (task : URL) : Option (List Event × Option URL) := do
  let (evs2, s2) ←
    (if withMangle then TryMangleURL w slot task else some ([], slot))
  if URLHasExtension task then some (evs2, s2)
  else do
    let (evs3, s3) ← handleExtensions w task s2 w.settings.extensions
    some (evs2 ++ evs3, s3)

/-- `Worker.HandleURL`: attempt the raw URL; unless it is directory-style,
mangle it when signalled and, when it has no extension, run the extension
loop; finally signal one unit of work done. -/
def HandleURL (w : Worker) (redir0 : Option URL) (task : URL) :
    Option (List Event × Option URL) := do
  let (withMangle, evs1, s1) ← TryURL w redir0 task
  let (evsR, sR) ←
    (if URLIsDir task then some ([], s1) else handleNonDir w withMangle s1 task)
  some (evs1 ++ evsR ++ [Event.done 1], sR)

/-- URLs of the fetch attempts in a trace, in order. -/
def fetchedURLs (evs : List Event) : List URL :=
  evs.filterMap (fun e => match e with | .fetch u => some u | _ => none)

/-- URLs enqueued to the work source in a trace, in order. -/
def addedURLs (evs : List Event) : List URL :=
  evs.filterMap (fun e => match e with | .add u => some u | _ => none)

/-- Result records emitted in a trace, in order. -/
def emittedResults (evs : List Event) : List Result :=
  evs.filterMap (fun e => match e with | .emit r => some r | _ => none)

/-- Done-signal amounts in a trace, in order. -/
def doneSignals (evs : List Event) : List Nat :=
  evs.filterMap (fun e => match e with | .done n => some n | _ => none)

/-- The mangle-variant URLs `TryMangleURL` would attempt for a task
(empty when mangling is disabled or the path has no slash). -/
def mangleTargets (w : Worker) (task : URL) : List URL :=
  if !w.settings.mangle then []
  else
    match lastSlashIdx task.path with
    | none => []
    | some spos =>
      (Mangle (task.path.drop (spos + 1))).map
        (fun newname => { task with path := task.path.take spos ++ "/" ++ newname })

/-! ### Trace lemmas -/

theorem fetchedURLs_append (a b : List Event) :
    fetchedURLs (a ++ b) = fetchedURLs a ++ fetchedURLs b :=
  List.filterMap_append a b _

theorem addedURLs_append (a b : List Event) :
    addedURLs (a ++ b) = addedURLs a ++ addedURLs b :=
  List.filterMap_append a b _

theorem emittedResults_append (a b : List Event) :
    emittedResults (a ++ b) = emittedResults a ++ emittedResults b :=
  List.filterMap_append a b _

theorem doneSignals_append (a b : List Event) :
    doneSignals (a ++ b) = doneSignals a ++ doneSignals b :=
  List.filterMap_append a b _

theorem fetchedURLs_sleepEvs (w : Worker) : fetchedURLs (sleepEvs w) = [] := by
  unfold sleepEvs; split <;> rfl

theorem addedURLs_sleepEvs (w : Worker) : addedURLs (sleepEvs w) = [] := by
  unfold sleepEvs; split <;> rfl

theorem emittedResults_sleepEvs (w : Worker) :
    emittedResults (sleepEvs w) = [] := by
  unfold sleepEvs; split <;> rfl

theorem doneSignals_sleepEvs (w : Worker) : doneSignals (sleepEvs w) = [] := by
  unfold sleepEvs; split <;> rfl

theorem fetchedURLs_pageWorkerEvs (w : Worker) (task : URL) (resp : Response) :
    fetchedURLs (pageWorkerEvs w task resp) = [] := by
  unfold pageWorkerEvs
  rcases w.pageWorker with _ | pw
  · rfl
  · by_cases h : pw.eligible resp = true <;> simp [h, fetchedURLs]

theorem addedURLs_pageWorkerEvs (w : Worker) (task : URL) (resp : Response) :
    addedURLs (pageWorkerEvs w task resp) = [] := by
  unfold pageWorkerEvs
  rcases w.pageWorker with _ | pw
  · rfl
  · by_cases h : pw.eligible resp = true <;> simp [h, addedURLs]

theorem emittedResults_pageWorkerEvs (w : Worker) (task : URL) (resp : Response) :
    emittedResults (pageWorkerEvs w task resp) = [] := by
  unfold pageWorkerEvs
  rcases w.pageWorker with _ | pw
  · rfl
  · by_cases h : pw.eligible resp = true <;> simp [h, emittedResults]

theorem doneSignals_pageWorkerEvs (w : Worker) (task : URL) (resp : Response) :
    doneSignals (pageWorkerEvs w task resp) = [] := by
  unfold pageWorkerEvs
  rcases w.pageWorker with _ | pw
  · rfl
  · by_cases h : pw.eligible resp = true <;> simp [h, doneSignals]

theorem fetchedURLs_spiderAddEvs (w : Worker) (task : URL) (resp : Response) :
    fetchedURLs (spiderAddEvs w task resp) = [] := by
  unfold spiderAddEvs; split <;> rfl

theorem doneSignals_spiderAddEvs (w : Worker) (task : URL) (resp : Response) :
    doneSignals (spiderAddEvs w task resp) = [] := by
  unfold spiderAddEvs; split <;> rfl

theorem emittedResults_spiderAddEvs (w : Worker) (task : URL) (resp : Response) :
    emittedResults (spiderAddEvs w task resp) = [] := by
  unfold spiderAddEvs; split <;> rfl

theorem fetchedURLs_redirAddEvs (slot : Option URL) :
    fetchedURLs (redirAddEvs slot) = [] := by
  rcases slot with _ | rt <;> rfl

theorem doneSignals_redirAddEvs (slot : Option URL) :
    doneSignals (redirAddEvs slot) = [] := by
  rcases slot with _ | rt <;> rfl

theorem emittedResults_redirAddEvs (slot : Option URL) :
    emittedResults (redirAddEvs slot) = [] := by
  rcases slot with _ | rt <;> rfl

theorem fetchedURLs_nil : fetchedURLs [] = [] := rfl

theorem addedURLs_nil : addedURLs [] = [] := rfl

theorem emittedResults_nil : emittedResults [] = [] := rfl

theorem doneSignals_nil : doneSignals [] = [] := rfl

theorem fetchedURLs_cons (e : Event) (l : List Event) :
    fetchedURLs (e :: l) =
      (match e with | .fetch u => [u] | _ => []) ++ fetchedURLs l := by
  cases e <;> rfl

theorem addedURLs_cons (e : Event) (l : List Event) :
    addedURLs (e :: l) =
      (match e with | .add u => [u] | _ => []) ++ addedURLs l := by
  cases e <;> rfl

theorem emittedResults_cons (e : Event) (l : List Event) :
    emittedResults (e :: l) =
      (match e with | .emit r => [r] | _ => []) ++ emittedResults l := by
  cases e <;> rfl

theorem doneSignals_cons (e : Event) (l : List Event) :
    doneSignals (e :: l) =
      (match e with | .done n => [n] | _ => []) ++ doneSignals l := by
  cases e <;> rfl

theorem addedURLs_spiderAddEvs (w : Worker) (task : URL) (resp : Response) :
    addedURLs (spiderAddEvs w task resp) =
      if URLIsDir task && KeepSpidering w.settings resp.statusCode then [task]
      else [] := by
  unfold spiderAddEvs; split <;> rfl

theorem addedURLs_redirAddEvs (slot : Option URL) :
    addedURLs (redirAddEvs slot) =
      match slot with | some rt => [rt] | none => [] := by
  rcases slot with _ | rt <;> rfl

theorem fetchedURLs_okTrace (w : Worker) (task : URL) (slot : Option URL)
    (resp : Response) : fetchedURLs (okTrace w task slot resp) = [task] := by
  simp [okTrace, fetchedURLs_cons, fetchedURLs_append,
    fetchedURLs_spiderAddEvs, fetchedURLs_redirAddEvs,
    fetchedURLs_pageWorkerEvs, fetchedURLs_sleepEvs, fetchedURLs_nil]

theorem doneSignals_okTrace (w : Worker) (task : URL) (slot : Option URL)
    (resp : Response) : doneSignals (okTrace w task slot resp) = [] := by
  simp [okTrace, doneSignals_cons, doneSignals_append,
    doneSignals_spiderAddEvs, doneSignals_redirAddEvs,
    doneSignals_pageWorkerEvs, doneSignals_sleepEvs, doneSignals_nil]

theorem emittedResults_okTrace (w : Worker) (task : URL) (slot : Option URL)
    (resp : Response) :
    emittedResults (okTrace w task slot resp) = [okResult task slot resp] := by
  simp [okTrace, emittedResults_cons, emittedResults_append,
    emittedResults_spiderAddEvs, emittedResults_redirAddEvs,
    emittedResults_pageWorkerEvs, emittedResults_sleepEvs, emittedResults_nil]

theorem addedURLs_okTrace (w : Worker) (task : URL) (slot : Option URL)
    (resp : Response) :
    addedURLs (okTrace w task slot resp) =
      (if URLIsDir task && KeepSpidering w.settings resp.statusCode then [task]
        else []) ++ (match slot with | some rt => [rt] | none => []) := by
  simp [okTrace, addedURLs_cons, addedURLs_append, addedURLs_spiderAddEvs,
    addedURLs_redirAddEvs, addedURLs_pageWorkerEvs, addedURLs_sleepEvs,
    addedURLs_nil]

theorem fetchSlotAfter_none (o : FetchOutcome) :
    fetchSlotAfter none o = o.redirTarget := by
  rcases o with ⟨resp0, err0, rt0⟩
  cases rt0 <;> rfl

theorem TryURL_err_eq (w : Worker) (r : Option URL) (task : URL)
    (he : (w.fetch task).err.isSome = true)
    (hr : (w.fetch task).redirTarget = none) :
    TryURL w r task =
      some (false,
        Event.fetch task :: Event.emit (errResult task (w.fetch task)) ::
          sleepEvs w,
        none) := by
  simp [TryURL, fetchSlotAfter_none, he, hr]

theorem TryURL_ok_eq (w : Worker) (r : Option URL) (task : URL)
    (resp : Response)
    (hc : ((w.fetch task).err.isSome && (w.fetch task).redirTarget.isNone)
      = false)
    (hresp : (w.fetch task).resp = some resp) :
    TryURL w r task =
      some (KeepSpidering w.settings resp.statusCode,
        okTrace w task (w.fetch task).redirTarget resp,
        (w.fetch task).redirTarget) := by
  simp [TryURL, fetchSlotAfter_none, hc, hresp]

theorem TryURL_fetchedURLs (w : Worker) (r : Option URL) (task : URL)
    (b : Bool) (evs : List Event) (s : Option URL)
    (h : TryURL w r task = some (b, evs, s)) : fetchedURLs evs = [task] := by
  cases hf : w.fetch task with
  | mk resp0 err0 rt0 =>
    simp only [TryURL, hf] at h
    cases rt0 <;> cases err0 <;> cases resp0 <;> simp [fetchSlotAfter] at h <;>
      obtain ⟨-, rfl, -⟩ := h <;>
      simp [fetchedURLs_cons, fetchedURLs_sleepEvs, fetchedURLs_okTrace,
        fetchedURLs_nil]

theorem TryURL_doneSignals (w : Worker) (r : Option URL) (task : URL)
    (b : Bool) (evs : List Event) (s : Option URL)
    (h : TryURL w r task = some (b, evs, s)) : doneSignals evs = [] := by
  cases hf : w.fetch task with
  | mk resp0 err0 rt0 =>
    simp only [TryURL, hf] at h
    cases rt0 <;> cases err0 <;> cases resp0 <;> simp [fetchSlotAfter] at h <;>
      obtain ⟨-, rfl, -⟩ := h <;>
      simp [doneSignals_cons, doneSignals_sleepEvs, doneSignals_okTrace,
        doneSignals_nil]

theorem TryURL_ret (w : Worker) (r : Option URL) (task : URL)
    (b : Bool) (evs : List Event) (s : Option URL)
    (h : TryURL w r task = some (b, evs, s)) : tryURLRet w task = some b := by
  cases hf : w.fetch task with
  | mk resp0 err0 rt0 =>
    simp only [TryURL, hf] at h
    simp only [tryURLRet, hf]
    cases rt0 <;> cases err0 <;> cases resp0 <;> simp [fetchSlotAfter] at h <;>
      obtain ⟨rfl, -, -⟩ := h <;> simp

theorem tryList_fetchedURLs (w : Worker) (us : List URL) :
    ∀ (slot : Option URL) (evs : List Event) (s2 : Option URL),
      tryList w slot us = some (evs, s2) → fetchedURLs evs = us := by
  induction us with
  | nil =>
    intro slot evs s2 h
    simp only [tryList, Option.some.injEq, Prod.mk.injEq] at h
    obtain ⟨rfl, -⟩ := h
    rfl
  | cons u rest ih =>
    intro slot evs s2 h
    simp only [tryList, Option.bind_eq_bind, Option.bind_eq_some] at h
    obtain ⟨⟨b, evs1, s1⟩, htry, ⟨evs2, s2x⟩, hrest, h⟩ := h
    simp only [Option.some.injEq, Prod.mk.injEq] at h
    obtain ⟨rfl, -⟩ := h
    rw [fetchedURLs_append, TryURL_fetchedURLs w slot u b evs1 s1 htry,
      ih s1 evs2 s2x hrest]
    rfl

theorem tryList_doneSignals (w : Worker) (us : List URL) :
    ∀ (slot : Option URL) (evs : List Event) (s2 : Option URL),
      tryList w slot us = some (evs, s2) → doneSignals evs = [] := by
  induction us with
  | nil =>
    intro slot evs s2 h
    simp only [tryList, Option.some.injEq, Prod.mk.injEq] at h
    obtain ⟨rfl, -⟩ := h
    rfl
  | cons u rest ih =>
    intro slot evs s2 h
    simp only [tryList, Option.bind_eq_bind, Option.bind_eq_some] at h
    obtain ⟨⟨b, evs1, s1⟩, htry, ⟨evs2, s2x⟩, hrest, h⟩ := h
    simp only [Option.some.injEq, Prod.mk.injEq] at h
    obtain ⟨rfl, -⟩ := h
    rw [doneSignals_append, TryURL_doneSignals w slot u b evs1 s1 htry,
      ih s1 evs2 s2x hrest]
    rfl

theorem TryMangleURL_noop (w : Worker) (slot : Option URL) (task : URL)
    (h : w.settings.mangle = false ∨ lastSlashIdx task.path = none) :
    TryMangleURL w slot task = some ([], slot) := by
  rcases h with h | h
  · simp [TryMangleURL, h]
  · cases hm : w.settings.mangle
    · simp [TryMangleURL, hm]
    · simp [TryMangleURL, hm, h]

theorem TryMangleURL_fetchedURLs (w : Worker) (slot : Option URL) (task : URL)
    (evs : List Event) (s2 : Option URL)
    (h : TryMangleURL w slot task = some (evs, s2)) :
    fetchedURLs evs = mangleTargets w task := by
  cases hm : w.settings.mangle
  · simp only [TryMangleURL, hm, Bool.not_false, if_true, Option.some.injEq,
      Prod.mk.injEq] at h
    obtain ⟨rfl, -⟩ := h
    simp [mangleTargets, hm, fetchedURLs_nil]
  · cases hsl : lastSlashIdx task.path with
    | none =>
      simp only [TryMangleURL, hm, hsl, Bool.not_true, Bool.false_eq_true,
        if_false, Option.some.injEq, Prod.mk.injEq] at h
      obtain ⟨rfl, -⟩ := h
      simp [mangleTargets, hsl, fetchedURLs_nil]
    | some spos =>
      simp only [TryMangleURL, hm, hsl, Bool.not_true, Bool.false_eq_true,
        if_false] at h
      rw [tryList_fetchedURLs w _ slot evs s2 h]
      simp [mangleTargets, hm, hsl]

theorem TryMangleURL_doneSignals (w : Worker) (slot : Option URL) (task : URL)
    (evs : List Event) (s2 : Option URL)
    (h : TryMangleURL w slot task = some (evs, s2)) :
    doneSignals evs = [] := by
  cases hm : w.settings.mangle
  · simp only [TryMangleURL, hm, Bool.not_false, if_true, Option.some.injEq,
      Prod.mk.injEq] at h
    obtain ⟨rfl, -⟩ := h
    rfl
  · cases hsl : lastSlashIdx task.path with
    | none =>
      simp only [TryMangleURL, hm, hsl, Bool.not_true, Bool.false_eq_true,
        if_false, Option.some.injEq, Prod.mk.injEq] at h
      obtain ⟨rfl, -⟩ := h
      rfl
    | some spos =>
      simp only [TryMangleURL, hm, hsl, Bool.not_true, Bool.false_eq_true,
        if_false] at h
      exact tryList_doneSignals w _ slot evs s2 h

/-- The fetch attempts the extension loop performs: one per configured
extension, each on the dotted clone, followed by the clone's mangle
candidates exactly when the clone's attempt signalled continued
mangling. -/
def extFanout (w : Worker) (task : URL) (exts : List String) : List URL :=
  exts.flatMap (fun ext =>
    extURL task ext ::
      (if tryURLRet w (extURL task ext) = some true then
        mangleTargets w (extURL task ext)
      else []))

theorem handleExtensions_fetchedURLs (w : Worker) (task : URL)
    (exts : List String) :
    ∀ (slot : Option URL) (evs : List Event) (s2 : Option URL),
      handleExtensions w task slot exts = some (evs, s2) →
      fetchedURLs evs = extFanout w task exts := by
  induction exts with
  | nil =>
    intro slot evs s2 h
    simp only [handleExtensions, Option.some.injEq, Prod.mk.injEq] at h
    obtain ⟨rfl, -⟩ := h
    rfl
  | cons ext rest ih =>
    intro slot evs s2 h
    simp only [handleExtensions, Option.bind_eq_bind, Option.bind_eq_some] at h
    obtain ⟨⟨b, evs1, s1⟩, htry, ⟨evs2, s2x⟩, hmang, ⟨evs3, s3x⟩, hrest, h⟩ := h
    simp only [Option.some.injEq, Prod.mk.injEq] at h
    obtain ⟨rfl, -⟩ := h
    have hret := TryURL_ret w slot (extURL task ext) b evs1 s1 htry
    have h1 := TryURL_fetchedURLs w slot (extURL task ext) b evs1 s1 htry
    have h3 := ih s2x evs3 s3x hrest
    cases b with
    | false =>
      simp only [Bool.false_eq_true, if_false, Option.some.injEq,
        Prod.mk.injEq] at hmang
      obtain ⟨rfl, -⟩ := hmang
      rw [fetchedURLs_append, fetchedURLs_append, h1, fetchedURLs_nil, h3]
      simp [extFanout, hret]
    | true =>
      simp only [if_true] at hmang
      have h2 := TryMangleURL_fetchedURLs w s1 (extURL task ext) evs2 s2x hmang
      rw [fetchedURLs_append, fetchedURLs_append, h1, h2, h3]
      simp [extFanout, hret]

theorem handleExtensions_doneSignals (w : Worker) (task : URL)
    (exts : List String) :
    ∀ (slot : Option URL) (evs : List Event) (s2 : Option URL),
      handleExtensions w task slot exts = some (evs, s2) →
      doneSignals evs = [] := by
  induction exts with
  | nil =>
    intro slot evs s2 h
    simp only [handleExtensions, Option.some.injEq, Prod.mk.injEq] at h
    obtain ⟨rfl, -⟩ := h
    rfl
  | cons ext rest ih =>
    intro slot evs s2 h
    simp only [handleExtensions, Option.bind_eq_bind, Option.bind_eq_some] at h
    obtain ⟨⟨b, evs1, s1⟩, htry, ⟨evs2, s2x⟩, hmang, ⟨evs3, s3x⟩, hrest, h⟩ := h
    simp only [Option.some.injEq, Prod.mk.injEq] at h
    obtain ⟨rfl, -⟩ := h
    have h1 := TryURL_doneSignals w slot (extURL task ext) b evs1 s1 htry
    have h3 := ih s2x evs3 s3x hrest
    cases b with
    | false =>
      simp only [Bool.false_eq_true, if_false, Option.some.injEq,
        Prod.mk.injEq] at hmang
      obtain ⟨rfl, -⟩ := hmang
      rw [doneSignals_append, doneSignals_append, h1, doneSignals_nil, h3]
      rfl
    | true =>
      simp only [if_true] at hmang
      have h2 := TryMangleURL_doneSignals w s1 (extURL task ext) evs2 s2x hmang
      rw [doneSignals_append, doneSignals_append, h1, h2, h3]
      rfl

theorem handleNonDir_fetchedURLs (w : Worker) (wm : Bool) (slot : Option URL)
    (task : URL) (evs : List Event) (s2 : Option URL)
    (h : handleNonDir w wm slot task = some (evs, s2)) :
    fetchedURLs evs =
      (if wm then mangleTargets w task else []) ++
        (if URLHasExtension task then []
         else extFanout w task w.settings.extensions) := by
  simp only [handleNonDir, Option.bind_eq_bind, Option.bind_eq_some] at h
  obtain ⟨⟨evs2, s2x⟩, hmang, h⟩ := h
  have hm2 : fetchedURLs evs2 = (if wm then mangleTargets w task else []) := by
    cases wm
    · simp only [Bool.false_eq_true, if_false, Option.some.injEq,
        Prod.mk.injEq] at hmang
      obtain ⟨rfl, -⟩ := hmang
      rfl
    · simp only [if_true] at hmang
      simp [TryMangleURL_fetchedURLs w slot task evs2 s2x hmang]
  cases hext : URLHasExtension task with
  | true =>
    rw [hext] at h
    simp only [if_true, Option.some.injEq, Prod.mk.injEq] at h
    obtain ⟨rfl, -⟩ := h
    simp [hm2]
  | false =>
    rw [hext] at h
    simp only [Bool.false_eq_true, if_false, Option.bind_eq_bind,
      Option.bind_eq_some] at h
    obtain ⟨⟨evs3, s3x⟩, hexts, h⟩ := h
    simp only [Option.some.injEq, Prod.mk.injEq] at h
    obtain ⟨rfl, -⟩ := h
    rw [fetchedURLs_append, hm2,
      handleExtensions_fetchedURLs w task _ s2x evs3 s3x hexts]
    simp

theorem handleNonDir_doneSignals (w : Worker) (wm : Bool) (slot : Option URL)
    (task : URL) (evs : List Event) (s2 : Option URL)
    (h : handleNonDir w wm slot task = some (evs, s2)) :
    doneSignals evs = [] := by
  simp only [handleNonDir, Option.bind_eq_bind, Option.bind_eq_some] at h
  obtain ⟨⟨evs2, s2x⟩, hmang, h⟩ := h
  have hm2 : doneSignals evs2 = [] := by
    cases wm
    · simp only [Bool.false_eq_true, if_false, Option.some.injEq,
        Prod.mk.injEq] at hmang
      obtain ⟨rfl, -⟩ := hmang
      rfl
    · simp only [if_true] at hmang
      exact TryMangleURL_doneSignals w slot task evs2 s2x hmang
  cases hext : URLHasExtension task with
  | true =>
    rw [hext] at h
    simp only [if_true, Option.some.injEq, Prod.mk.injEq] at h
    obtain ⟨rfl, -⟩ := h
    exact hm2
  | false =>
    rw [hext] at h
    simp only [Bool.false_eq_true, if_false, Option.bind_eq_bind,
      Option.bind_eq_some] at h
    obtain ⟨⟨evs3, s3x⟩, hexts, h⟩ := h
    simp only [Option.some.injEq, Prod.mk.injEq] at h
    obtain ⟨rfl, -⟩ := h
    rw [doneSignals_append, hm2,
      handleExtensions_doneSignals w task _ s2x evs3 s3x hexts]
    rfl

theorem HandleURL_parts (w : Worker) (r : Option URL) (task : URL)
    (evs : List Event) (s : Option URL)
    (h : HandleURL w r task = some (evs, s)) :
    ∃ b evs1 s1 evsR sR,
      TryURL w r task = some (b, evs1, s1) ∧
      (if URLIsDir task then some ([], s1)
        else handleNonDir w b s1 task) = some (evsR, sR) ∧
      evs = evs1 ++ evsR ++ [Event.done 1] := by
  simp only [HandleURL, Option.bind_eq_bind, Option.bind_eq_some] at h
  obtain ⟨⟨b, evs1, s1⟩, htry, ⟨evsR, sR⟩, hrest, h⟩ := h
  simp only [Option.some.injEq, Prod.mk.injEq] at h
  exact ⟨b, evs1, s1, evsR, sR, htry, hrest, h.1.symm⟩

/-! ### Claim theorems -/

/-- C9: `Mangle` is deterministic and pure, always yields exactly the four
fixed-rule candidates in order, tolerates the empty basename without
error, and on "config" yields exactly the documented candidate list. -/
theorem mangle_fixed_candidates :
    (∀ b, (Mangle b).length = 4) ∧
    Mangle "config" = [".config.swp", "config~", "config.bak", "config.orig"] ∧
    Mangle "" = ["..swp", "~", ".bak", ".orig"] :=
  ⟨fun _ => rfl, by decide, by decide⟩

/-- C5: on a transport error with no captured redirect, `TryURL` emits
exactly one result record, carrying the error and the status code exactly
when a response was nonetheless returned (`none` otherwise), enqueues
nothing, and returns false. -/
theorem tryURL_transport_failure (w : Worker) (r : Option URL) (task : URL)
    (e : String)
    (he : (w.fetch task).err = some e)
    (hnr : (w.fetch task).redirTarget = none) :
    ∃ evs, TryURL w r task = some (false, evs, none) ∧
      emittedResults evs =
        [{ url := task,
           code := (w.fetch task).resp.map (fun resp => resp.statusCode),
           error := some e, redir := none, length := none }] ∧
      addedURLs evs = [] := by
  have heq := TryURL_err_eq w r task (by simp [he]) hnr
  refine ⟨_, heq, ?_, ?_⟩
  · simp [emittedResults_cons, emittedResults_sleepEvs, emittedResults_nil,
      errResult, he]
  · simp [addedURLs_cons, addedURLs_sleepEvs, addedURLs_nil]

/-- C1: the captured-redirect scratch slot is cleared before the fetch
(the attempt is independent of the incoming slot contents), and an errored
fetch with a captured redirect takes the success path: no emitted record
carries the sentinel error, the redirect target is enqueued via the adder,
and the emitted record carries the target in its redirect field. -/
theorem tryURL_redirect_is_success_path (w : Worker) (r : Option URL)
    (task : URL) (e : String) (rt : URL) (resp : Response)
    (_he : (w.fetch task).err = some e)
    (hrt : (w.fetch task).redirTarget = some rt)
    (hresp : (w.fetch task).resp = some resp) :
    TryURL w r task = TryURL w none task ∧
    ∃ b evs, TryURL w r task = some (b, evs, some rt) ∧
      (∀ res ∈ emittedResults evs, res.error = none) ∧
      rt ∈ addedURLs evs ∧
      (∃ res ∈ emittedResults evs, res.redir = some rt) := by
  have hc : ((w.fetch task).err.isSome && (w.fetch task).redirTarget.isNone)
      = false := by simp [hrt]
  have heq := TryURL_ok_eq w r task resp hc hresp
  rw [hrt] at heq
  refine ⟨rfl, KeepSpidering w.settings resp.statusCode, _, heq, ?_, ?_, ?_⟩
  · intro res hres
    rw [emittedResults_okTrace] at hres
    simp only [List.mem_singleton] at hres
    subst hres
    rfl
  · rw [addedURLs_okTrace]
    simp
  · refine ⟨okResult task (some rt) resp, ?_, rfl⟩
    rw [emittedResults_okTrace]
    simp

/-- C8: off the real-transport-failure path, the boolean `TryURL` returns
is exactly `KeepSpidering` of the status code, i.e. membership of the
status code in the configured spider codes. -/
theorem tryURL_returns_spiderable (w : Worker) (r : Option URL) (task : URL)
    (b : Bool) (evs : List Event) (s : Option URL) (resp : Response)
    (hc : ((w.fetch task).err.isSome && (w.fetch task).redirTarget.isNone)
      = false)
    (hresp : (w.fetch task).resp = some resp)
    (h : TryURL w r task = some (b, evs, s)) :
    b = KeepSpidering w.settings resp.statusCode ∧
    (b = true ↔ resp.statusCode ∈ w.settings.spiderCodes) := by
  have heq := TryURL_ok_eq w r task resp hc hresp
  rw [heq] at h
  simp only [Option.some.injEq, Prod.mk.injEq] at h
  obtain ⟨hb, -⟩ := h
  refine ⟨hb.symm, ?_⟩
  rw [← hb]
  simp [KeepSpidering, List.any_eq_true]

/-- C10: a successful non-directory fetch with no captured redirect
enqueues nothing to the work source. -/
theorem tryURL_nondir_success_frame (w : Worker) (r : Option URL) (task : URL)
    (b : Bool) (evs : List Event) (s : Option URL)
    (hdir : URLIsDir task = false)
    (he : (w.fetch task).err = none)
    (hnr : (w.fetch task).redirTarget = none)
    (h : TryURL w r task = some (b, evs, s)) :
    addedURLs evs = [] := by
  cases hresp : (w.fetch task).resp with
  | none =>
    have hnone : TryURL w r task = none := by
      simp [TryURL, fetchSlotAfter_none, he, hnr, hresp]
    rw [hnone] at h
    exact Option.noConfusion h
  | some resp =>
    have heq := TryURL_ok_eq w r task resp (by simp [he]) hresp
    rw [hnr] at heq
    rw [heq] at h
    simp only [Option.some.injEq, Prod.mk.injEq] at h
    obtain ⟨-, rfl, -⟩ := h
    rw [addedURLs_okTrace]
    simp [hdir]

/-- C3: every handled URL signals exactly one done(1) unit, independent of
its fan-out. -/
theorem handleURL_done_exactly_once (w : Worker) (r : Option URL) (task : URL)
    (evs : List Event) (s : Option URL)
    (h : HandleURL w r task = some (evs, s)) :
    doneSignals evs = [1] := by
  obtain ⟨b, evs1, s1, evsR, sR, htry, hrest, rfl⟩ :=
    HandleURL_parts w r task evs s h
  have h1 := TryURL_doneSignals w r task b evs1 s1 htry
  have hR : doneSignals evsR = [] := by
    cases hdir : URLIsDir task
    · rw [hdir] at hrest
      simp only [Bool.false_eq_true, if_false] at hrest
      exact handleNonDir_doneSignals w b s1 task evsR sR hrest
    · rw [hdir] at hrest
      simp only [if_true, Option.some.injEq, Prod.mk.injEq] at hrest
      obtain ⟨rfl, -⟩ := hrest
      rfl
  rw [doneSignals_append, doneSignals_append, h1, hR]
  rfl

/-- C4: a directory-style URL whose fetch succeeds with a spiderable
status is re-enqueued exactly once, and no other fetch attempt (mangle or
extension variant) is made for it. -/
theorem handleURL_dir_spider_once (w : Worker) (r : Option URL) (task : URL)
    (evs : List Event) (s : Option URL) (resp : Response)
    (hdir : URLIsDir task = true)
    (he : (w.fetch task).err = none)
    (hnr : (w.fetch task).redirTarget = none)
    (hresp : (w.fetch task).resp = some resp)
    (hkeep : KeepSpidering w.settings resp.statusCode = true)
    (h : HandleURL w r task = some (evs, s)) :
    addedURLs evs = [task] ∧ fetchedURLs evs = [task] := by
  obtain ⟨b, evs1, s1, evsR, sR, htry, hrest, rfl⟩ :=
    HandleURL_parts w r task evs s h
  have heq := TryURL_ok_eq w r task resp (by simp [he]) hresp
  rw [hnr] at heq
  rw [heq] at htry
  simp only [Option.some.injEq, Prod.mk.injEq] at htry
  obtain ⟨-, rfl, -⟩ := htry
  rw [hdir] at hrest
  simp only [if_true, Option.some.injEq, Prod.mk.injEq] at hrest
  obtain ⟨rfl, -⟩ := hrest
  constructor
  · rw [addedURLs_append, addedURLs_append, addedURLs_okTrace]
    simp [hdir, hkeep, addedURLs_cons, addedURLs_nil]
  · rw [fetchedURLs_append, fetchedURLs_append, fetchedURLs_okTrace]
    simp [fetchedURLs_cons, fetchedURLs_nil]

/-- C6: a non-directory URL is fetched raw, then mangled exactly when its
attempt returned true; when it has no extension, exactly one attempt per
configured extension follows on the dotted clone, each with its own mangle
attempts exactly when that clone's attempt returned true; when it already
carries an extension, no extension variants are attempted. -/
theorem handleURL_extension_fanout (w : Worker) (r : Option URL) (task : URL)
    (evs : List Event) (s : Option URL)
    (hdir : URLIsDir task = false)
    (h : HandleURL w r task = some (evs, s)) :
    fetchedURLs evs =
      task ::
        ((if tryURLRet w task = some true then mangleTargets w task else []) ++
          (if URLHasExtension task then []
           else extFanout w task w.settings.extensions)) := by
  obtain ⟨b, evs1, s1, evsR, sR, htry, hrest, rfl⟩ :=
    HandleURL_parts w r task evs s h
  rw [hdir] at hrest
  simp only [Bool.false_eq_true, if_false] at hrest
  have h1 := TryURL_fetchedURLs w r task b evs1 s1 htry
  have hret := TryURL_ret w r task b evs1 s1 htry
  have hR := handleNonDir_fetchedURLs w b s1 task evsR sR hrest
  rw [fetchedURLs_append, fetchedURLs_append, h1, hR, hret]
  cases b <;> simp [fetchedURLs_cons, fetchedURLs_nil]

/-- C7: `TryMangleURL` makes no fetch attempt when mangling is disabled or
the path has no slash; otherwise it attempts exactly one fetch per mangle
candidate, each on a clone whose path is the directory prefix plus a slash
plus the candidate, with no further fan-out. -/
theorem tryMangleURL_exact_candidates (w : Worker) (slot : Option URL)
    (task : URL) :
    ((w.settings.mangle = false ∨ lastSlashIdx task.path = none) →
      TryMangleURL w slot task = some ([], slot)) ∧
    (∀ spos evs s2, w.settings.mangle = true →
      lastSlashIdx task.path = some spos →
      TryMangleURL w slot task = some (evs, s2) →
      fetchedURLs evs =
        (Mangle (task.path.drop (spos + 1))).map
          (fun newname =>
            { task with path := task.path.take spos ++ "/" ++ newname })) := by
  refine ⟨TryMangleURL_noop w slot task, ?_⟩
  intro spos evs s2 hm hsl h
  rw [TryMangleURL_fetchedURLs w slot task evs s2 h]
  simp [mangleTargets, hm, hsl]

/-! ### Concrete fixtures for witnesses -/

/-- Scan settings used by the concrete witnesses: one extension, mangling
on, 200 spiderable, no pacing sleep. -/
def plainSettings : ScanSettings :=
  { extensions := ["php"], mangle := true, spiderCodes := [200],
    sleepTime := 0 }

/-- A non-directory task URL without an extension. -/
def uAdmin : URL := { base := "http://x", path := "/admin" }

/-- A directory-style task URL. -/
def uDir : URL := { base := "http://x", path := "/docs/" }

/-- A redirect target URL. -/
def uNew : URL := { base := "http://x", path := "/new" }

/-- A worker whose transport always fails with no response and no
redirect. -/
def wErr : Worker :=
  { settings := plainSettings, pageWorker := none,
    fetch := fun _ =>
      { resp := none, err := some "connection refused", redirTarget := none } }

/-- A worker whose transport always answers 200 with no redirect. -/
def wOk : Worker :=
  { settings := plainSettings, pageWorker := none,
    fetch := fun _ =>
      { resp := some { statusCode := 200, contentLength := 3 }, err := none,
        redirTarget := none } }

/-- A worker whose transport intercepts a redirect: the sentinel error is
returned together with the 301 response, and the callback captured the
target. -/
def wRedir : Worker :=
  { settings := plainSettings, pageWorker := none,
    fetch := fun _ =>
      { resp := some { statusCode := 301, contentLength := 0 },
        err := some "Stop redirect.", redirTarget := some uNew } }

/-- A worker whose transport returns a response together with a real
(non-redirect) error. -/
def wBug : Worker :=
  { settings := plainSettings, pageWorker := none,
    fetch := fun _ =>
      { resp := some { statusCode := 500, contentLength := 0 },
        err := some "connection reset", redirTarget := none } }

/-- The result record `wErr` produces for a URL. -/
def errRec (u : URL) : Result :=
  { url := u, code := none, error := some "connection refused", redir := none,
    length := none }

/-- The extension clone of `uAdmin`. -/
def uAdminPhp : URL := { base := "http://x", path := "/admin.php" }

/-- The trace of handling `uAdmin` with the failing transport: raw attempt,
extension attempt, one done signal. -/
def errTraceAdmin : List Event :=
  [Event.fetch uAdmin, Event.emit (errRec uAdmin),
   Event.fetch uAdminPhp, Event.emit (errRec uAdminPhp), Event.done 1]

/-- The mangle candidates of `uAdmin`. -/
def uSwp : URL := { base := "http://x", path := "/.admin.swp" }

/-- The tilde mangle candidate of `uAdmin`. -/
def uTilde : URL := { base := "http://x", path := "/admin~" }

/-- The .bak mangle candidate of `uAdmin`. -/
def uBak : URL := { base := "http://x", path := "/admin.bak" }

/-- The .orig mangle candidate of `uAdmin`. -/
def uOrig : URL := { base := "http://x", path := "/admin.orig" }

/-- The trace of mangling `uAdmin` with the failing transport. -/
def mangleTraceAdmin : List Event :=
  [Event.fetch uSwp, Event.emit (errRec uSwp),
   Event.fetch uTilde, Event.emit (errRec uTilde),
   Event.fetch uBak, Event.emit (errRec uBak),
   Event.fetch uOrig, Event.emit (errRec uOrig)]

/-- The trace of one successful attempt of `uAdmin` on `wOk`. -/
def okTraceAdmin : List Event :=
  [Event.fetch uAdmin,
   Event.emit
     { url := uAdmin, code := some 200, error := none, redir := none,
       length := some 3 },
   Event.closeBody]

/-- The trace of handling the directory URL `uDir` on `wOk`. -/
def dirTraceDocs : List Event :=
  [Event.fetch uDir, Event.add uDir,
   Event.emit
     { url := uDir, code := some 200, error := none, redir := none,
       length := some 3 },
   Event.closeBody, Event.done 1]

/-- C2 (code bug): when the transport returns a response together with a
real error and no redirect, `TryURL` takes the failure branch and the
trace never closes the response body — the deferred close is installed
only on the non-failure branch — contradicting the requirement that the
body be released on every exit path. -/
theorem tryURL_error_path_body_not_closed :
    (wBug.fetch uAdmin).resp = some { statusCode := 500, contentLength := 0 } ∧
    TryURL wBug none uAdmin =
      some (false,
        [Event.fetch uAdmin,
         Event.emit
           { url := uAdmin, code := some 500, error := some "connection reset",
             redir := none, length := none }],
        none) ∧
    Event.closeBody ∉
      [Event.fetch uAdmin,
       Event.emit
         { url := uAdmin, code := some 500, error := some "connection reset",
           redir := none, length := none }] :=
  ⟨rfl, by decide, by decide⟩

/-! ### Witnesses -/

/-- Witness for C5 at a concrete failing transport. -/
theorem tryURL_transport_failure_witness :
    ∃ evs, TryURL wErr none uAdmin = some (false, evs, none) ∧
      emittedResults evs =
        [{ url := uAdmin,
           code := (wErr.fetch uAdmin).resp.map (fun resp => resp.statusCode),
           error := some "connection refused", redir := none, length := none }] ∧
      addedURLs evs = [] :=
  tryURL_transport_failure wErr none uAdmin "connection refused" rfl rfl

/-- Witness for C1 at a concrete intercepted redirect, with a stale value
in the incoming scratch slot. -/
theorem tryURL_redirect_witness :
    TryURL wRedir (some uAdmin) uAdmin = TryURL wRedir none uAdmin ∧
    ∃ b evs, TryURL wRedir (some uAdmin) uAdmin = some (b, evs, some uNew) ∧
      (∀ res ∈ emittedResults evs, res.error = none) ∧
      uNew ∈ addedURLs evs ∧
      (∃ res ∈ emittedResults evs, res.redir = some uNew) :=
  tryURL_redirect_is_success_path wRedir (some uAdmin) uAdmin "Stop redirect."
    uNew { statusCode := 301, contentLength := 0 } rfl rfl rfl

/-- Witness for C8 at a concrete 200 response with spider codes `[200]`. -/
theorem tryURL_spiderable_witness :
    true = KeepSpidering wOk.settings 200 ∧
    (true = true ↔ 200 ∈ wOk.settings.spiderCodes) :=
  tryURL_returns_spiderable wOk none uAdmin true okTraceAdmin none
    { statusCode := 200, contentLength := 3 } (by decide) rfl (by decide)

/-- Witness for C10 at a concrete successful non-directory attempt. -/
theorem tryURL_frame_witness : addedURLs okTraceAdmin = [] :=
  tryURL_nondir_success_frame wOk none uAdmin true okTraceAdmin none
    (by decide) rfl rfl (by decide)

/-- Witness for C3 at a concrete handled URL with fan-out. -/
theorem handleURL_done_witness : doneSignals errTraceAdmin = [1] :=
  handleURL_done_exactly_once wErr none uAdmin errTraceAdmin none (by decide)

/-- Witness for C4 at a concrete spiderable directory URL. -/
theorem handleURL_dir_witness :
    addedURLs dirTraceDocs = [uDir] ∧ fetchedURLs dirTraceDocs = [uDir] :=
  handleURL_dir_spider_once wOk none uDir dirTraceDocs none
    { statusCode := 200, contentLength := 3 } (by decide) rfl rfl rfl
    (by decide) (by decide)

/-- Witness for C6 at a concrete extensionless non-directory URL. -/
theorem handleURL_fanout_witness :
    fetchedURLs errTraceAdmin =
      uAdmin ::
        ((if tryURLRet wErr uAdmin = some true then mangleTargets wErr uAdmin
          else []) ++
          (if URLHasExtension uAdmin then []
           else extFanout wErr uAdmin wErr.settings.extensions)) :=
  handleURL_extension_fanout wErr none uAdmin errTraceAdmin none (by decide)
    (by decide)

/-- Witness for C7: the pathless no-op case and the exact-candidate case,
both at concrete inputs. -/
theorem tryMangleURL_witness :
    TryMangleURL wErr none { base := "http://x", path := "admin" } =
      some ([], none) ∧
    fetchedURLs mangleTraceAdmin =
      (Mangle (uAdmin.path.drop (0 + 1))).map
        (fun newname =>
          { uAdmin with path := uAdmin.path.take 0 ++ "/" ++ newname }) :=
  ⟨(tryMangleURL_exact_candidates wErr none
      { base := "http://x", path := "admin" }).1 (Or.inr (by decide)),
   (tryMangleURL_exact_candidates wErr none uAdmin).2 0 mangleTraceAdmin none
     rfl (by decide) (by decide)⟩

end Gobuster
